import Mathlib

/-!
# Gridmap editor plugin (`src/editor/gridmap_editor.cpp`)

A shallow embedding of `Lumix::EditorPlugin`: its fields, the snap computation
`getIntersectPlanePos`, the per-frame `onGUI` and the click handler
`onMouseDown`.

* `float` / `double` values are exact rationals (`ℚ`).
* `u32` values are naturals; casts to `u32` are written `u32 n = n % 2^32`.
* The host engine (world editor, asset browser, resource manager, renderer,
  ImGui) is not part of the file.  What it hands back is read from `StudioApp`
  (per call) and `Gui` (per frame); what the plugin asks of it is recorded as a
  list of `HostCall`s, in program order.
* Undefined behaviour of the C++ (remainder by zero, out-of-range index,
  out-of-range float to integer conversion) is an explicit `Fault`.
-/

namespace Lumix

/-! ## Data model -/

/-- Ways in which a call of the plugin can leave defined behaviour. -/
inductive Fault where
  | remByZero
  | indexOutOfBounds
  | floatToU32
deriving DecidableEq

/-- Cast to `u32`. -/
def u32 (n : Nat) : Nat := n % 2 ^ 32

/-- Three component vector; stands for both `Vec3` and `DVec3`. -/
structure Vec3 where
  x : ℚ
  y : ℚ
  z : ℚ
deriving DecidableEq

/-- Component-wise sum, `a + b`. -/
def Vec3.add (a b : Vec3) : Vec3 := ⟨a.x + b.x, a.y + b.y, a.z + b.z⟩

/-- Product with a scalar, `a * t`. -/
def Vec3.scale (a : Vec3) (t : ℚ) : Vec3 := ⟨a.x * t, a.y * t, a.z * t⟩

/-- A ray: `origin` and `dir`. -/
structure Ray where
  origin : Vec3
  dir : Vec3
deriving DecidableEq

/-- A loaded `Model*`: the pointer and the path of the resource. -/
structure Model where
  ptr : Nat
  path : String
deriving DecidableEq

/-- An `EntityRef` handed out by the world editor. -/
structure EntityRef where
  index : Nat
deriving DecidableEq

/-- A `ComponentType`, identified by the name it was looked up with. -/
structure ComponentType where
  name : String
deriving DecidableEq

/-- The constant `MODEL_INSTANCE_TYPE = reflection::getComponentType("model_instance")`. -/
def MODEL_INSTANCE_TYPE : ComponentType := ⟨"model_instance"⟩

/-- Calls the plugin makes into the host and that the host can observe. -/
inductive HostCall where
  | load (path : String)
  | decRefCount (m : Model)
  | sameLine
  | tile (path : String) (selected : Bool)
  | addDebugLine (src dst : Vec3) (color : Nat)
  | beginCommandGroup (name : String)
  | addEntity (e : EntityRef)
  | addComponent (e : EntityRef) (type : ComponentType)
  | setProperty (cmp : ComponentType) (array : Option String) (idx : Int) (prop : String)
      (e : EntityRef) (value : String)
  | setEntitiesPositions (e : EntityRef) (pos : Vec3)
  | endCommandGroup
deriving DecidableEq

/-- What the host answers when asked: the ray under the mouse cursor, the
engine routine `getRayPlaneIntersecion (origin, dir, plane_point, normal)`
(`some t` when it returns true with out-parameter `t`), the entity returned by
`addEntity`, and the resource manager `load<Model>`. -/
structure StudioApp where
  mouseRay : Ray
  getRayPlaneIntersecion : Vec3 → Vec3 → Vec3 → Vec3 → Option ℚ
  addEntity : EntityRef
  loadModel : String → Model

/-- What the immediate-mode widgets return during one `onGUI` frame. -/
structure Gui where
  /-- Result of `ImGui::Begin("Gridmap")`. -/
  begin_ : Bool
  /-- The `##enabled` checkbox was pressed (it flips `m_enabled`). -/
  enabled_pressed : Bool
  /-- Value typed into `##cell_size`, if any. -/
  cell_size : Option Vec3
  /-- Value typed into `##grid_offset`, if any. -/
  grid_offset : Option ℚ
  /-- Signed value written by `##floor`, if any. -/
  floor : Option Int
  /-- Path chosen in `resourceInput`, if it returned true. -/
  resource : Option String
  /-- Result of `checkShortcut(common.del)`. -/
  del : Bool
  /-- Value of `ImGui::GetContentRegionAvail().x`. -/
  avail_x : ℚ
  /-- Value of `asset_browser.getThumbnailWidth()`. -/
  thumbnail_width : ℚ
  /-- Value of `ImGui::GetStyle().ItemSpacing.x`. -/
  item_spacing_x : ℚ
  /-- Result of `ImGui::IsItemClicked()` after the tile with the given index. -/
  clicked : Nat → Bool

/-- The fields of `EditorPlugin` (lines 132-139). -/
structure EditorPlugin where
  m_models : List Model
  m_selected : Nat
  m_floor : Nat
  m_cell_size : Vec3
  m_grid_offset : ℚ
  m_enabled : Bool
deriving DecidableEq

/-- The field initialisers of lines 134-139. -/
def EditorPlugin.initial : EditorPlugin :=
  { m_models := [], m_selected := 0, m_floor := 0, m_cell_size := ⟨1, 1, 1⟩,
    m_grid_offset := 0, m_enabled := true }

/-- The value `0xffFFffFF` stored in `m_selected` when a tile is deselected. -/
def NO_SELECTION : Nat := 0xffFFffFF

/-! ## getIntersectPlanePos (lines 25-45) -/

/-- The height `y` of the plane the ray is intersected with (line 30). -/
def planeY (s : EditorPlugin) : ℚ := (s.m_floor : ℚ) * s.m_cell_size.y + s.m_grid_offset

/-- The unsnapped hit point `ray.origin + ray.dir * t` (line 34). -/
def hitPoint (ray : Ray) (t : ℚ) : Vec3 := ray.origin.add (ray.dir.scale t)

/-- One axis of "align to cell" (lines 37/39 followed by 41/42). -/
def alignToCell (p c : ℚ) : ℚ := (if c = 0 then p else (⌊p / c⌋ : ℚ) * c) + c * (1 / 2)

/-- The call of `getRayPlaneIntersecion` on line 32: the cursor ray against the plane through
`(0, y, 0)` with normal `(0, 1, 0)`. -/
def rayHit (app : StudioApp) (s : EditorPlugin) : Option ℚ :=
  app.getRayPlaneIntersecion app.mouseRay.origin app.mouseRay.dir ⟨0, planeY s, 0⟩ ⟨0, 1, 0⟩

/-- The method `getIntersectPlanePos`: `none` when it returns false, `some pos` when it
returns true with out-parameter `pos`. -/
def getIntersectPlanePos (app : StudioApp) (s : EditorPlugin) : Option Vec3 :=
  match rayHit app s with
  | none => none
  | some t =>
    let pos := hitPoint app.mouseRay t
    some ⟨alignToCell pos.x s.m_cell_size.x, (s.m_floor : ℚ) * s.m_cell_size.y,
      alignToCell pos.z s.m_cell_size.z⟩

/-! ## onMouseDown (lines 110-127) -/

/-- The command group issued for one insertion (lines 118-123). -/
def insertCommands (e : EntityRef) (path : String) (pos : Vec3) : List HostCall :=
  [ HostCall.beginCommandGroup "gridmap_add",
    HostCall.addEntity e,
    HostCall.addComponent e MODEL_INSTANCE_TYPE,
    HostCall.setProperty MODEL_INSTANCE_TYPE none (-1) "Source" e path,
    HostCall.setEntitiesPositions e pos,
    HostCall.endCommandGroup ]

/-- The method `onMouseDown`: the returned flag, the fields afterwards and the host calls. -/
def onMouseDown (app : StudioApp) (s : EditorPlugin) :
    Except Fault (Bool × EditorPlugin × List HostCall) :=
  if s.m_enabled = false then .ok (false, s, [])
  else if s.m_selected ≥ u32 s.m_models.length then .ok (false, s, [])
  else
    match getIntersectPlanePos app s with
    | some pos =>
      match s.m_models[s.m_selected]? with
      | none => .error Fault.indexOutOfBounds
      | some m => .ok (true, s, insertCommands app.addEntity m.path pos)
    | none => .ok (true, s, [])

/-! ## onGUI (lines 47-106) -/

/-- The checkbox of line 50. -/
def onGUI_checkbox (s : EditorPlugin) (gui : Gui) : EditorPlugin :=
  { s with m_enabled := if gui.enabled_pressed then !s.m_enabled else s.m_enabled }

/-- Reinterpretation of the signed value written through `(i32*)&m_floor` as `u32`. -/
def i32_as_u32 (n : Int) : Nat := Int.toNat (n % 2 ^ 32)

/-- The three numeric inputs of lines 52-57. -/
def onGUI_inputs (s : EditorPlugin) (gui : Gui) : EditorPlugin :=
  { s with
    m_cell_size := match gui.cell_size with
      | some v => v
      | none => s.m_cell_size
    m_grid_offset := match gui.grid_offset with
      | some v => v
      | none => s.m_grid_offset
    m_floor := match gui.floor with
      | some n => i32_as_u32 n
      | none => s.m_floor }

/-- Adding a model to the palette (lines 63-67). -/
def onGUI_add (app : StudioApp) (s : EditorPlugin) (gui : Gui) : EditorPlugin × List HostCall :=
  match gui.resource with
  | some path => ({ s with m_models := s.m_models ++ [app.loadModel path] }, [HostCall.load path])
  | none => (s, [])

/-- Modelled from the spec: `Array::erase(index)` of the host engine is not in the
source; it removes the element at `index` and keeps the order of the others. -/
def Array_erase (xs : List Model) (index : Nat) : List Model := xs.eraseIdx index

/-- Deleting the selected model (lines 68-72). -/
def onGUI_delete (s : EditorPlugin) (gui : Gui) : Except Fault (EditorPlugin × List HostCall) :=
  if gui.del = true ∧ s.m_selected < u32 s.m_models.length then
    match s.m_models[s.m_selected]? with
    | none => .error Fault.indexOutOfBounds
    | some m => .ok ({ s with m_models := Array_erase s.m_models s.m_selected },
        [HostCall.decRefCount m])
  else .ok (s, [])

/-- Truncation toward zero, the rounding of a float to integer conversion. -/
def trunc (q : ℚ) : Int := if 0 ≤ q then ⌊q⌋ else ⌈q⌉

/-- The column count of line 73, `u32(avail / (thumbnail_width + spacing))`.  Dividing by
zero, or converting a value whose truncation does not fit `u32`, is undefined. -/
def num_cols (gui : Gui) : Except Fault Nat :=
  let pitch := gui.thumbnail_width + gui.item_spacing_x
  if pitch = 0 then .error Fault.floatToU32
  else
    let t := trunc (gui.avail_x / pitch)
    if 0 ≤ t ∧ t < 2 ^ 32 then .ok (Int.toNat t) else .error Fault.floatToU32

/-- The assignment of lines 78-81: `m_selected` after the tile `idx`, given whether it was
clicked. -/
def clickTile (clicked : Bool) (sel idx : Nat) : Nat :=
  if clicked = true then (if sel = idx then NO_SELECTION else idx) else sel

/-- The loop of lines 74-82 from the tile at position `i` on: `ms` are the models still to
draw and `sel` the current `m_selected`.  Returns the final `m_selected`. -/
def tileLoop (cols : Nat) (clicked : Nat → Bool) :
    List Model → Nat → Nat → Except Fault (Nat × List HostCall)
  | [], _, sel => .ok (sel, [])
  | m :: ms, i, sel =>
    let idx := u32 i
    if cols = 0 then .error Fault.remByZero
    else
      let line := if idx % cols ≠ 0 then [HostCall.sameLine] else []
      let drawn := [HostCall.tile m.path (decide (sel = idx))]
      match tileLoop cols clicked ms (i + 1) (clickTile (clicked i) sel idx) with
      | .error e => .error e
      | .ok (sel2, calls) => .ok (sel2, line ++ drawn ++ calls)

/-- The palette tiles (lines 73-82). -/
def onGUI_tiles (s : EditorPlugin) (gui : Gui) : Except Fault (EditorPlugin × List HostCall) :=
  match num_cols gui with
  | .error e => .error e
  | .ok cols =>
    match tileLoop cols gui.clicked s.m_models 0 s.m_selected with
    | .error e => .error e
    | .ok (sel, calls) => .ok ({ s with m_selected := sel }, calls)

/-- The constant `half = 0.5f * 5` (line 89). -/
def half : ℚ := (1 / 2) * 5

/-- The constant `color` (line 90). -/
def color : Nat := 0xff00ffff

/-- The two debug lines of iteration `i` (lines 92-100). -/
def gridStep (s : EditorPlugin) (pos : Vec3) (i : Int) : List HostCall :=
  let z := ((i : ℚ) - half) * s.m_cell_size.z
  let from1 := pos.add ⟨-half * s.m_cell_size.x, s.m_grid_offset, z⟩
  let to1 := pos.add ⟨half * s.m_cell_size.x, s.m_grid_offset, z⟩
  let x := ((i : ℚ) - half) * s.m_cell_size.x
  let from2 := pos.add ⟨x, s.m_grid_offset, -half * s.m_cell_size.z⟩
  let to2 := pos.add ⟨x, s.m_grid_offset, half * s.m_cell_size.z⟩
  [HostCall.addDebugLine from1 to1 color, HostCall.addDebugLine from2 to2 color]

/-- The preview grid (lines 86-102): nothing when the ray misses the plane, otherwise
the iterations `i = 0, ..., 5`. -/
def onGUI_grid (app : StudioApp) (s : EditorPlugin) : List HostCall :=
  match getIntersectPlanePos app s with
  | none => []
  | some pos =>
    gridStep s pos 0 ++ gridStep s pos 1 ++ gridStep s pos 2 ++ gridStep s pos 3 ++
      gridStep s pos 4 ++ gridStep s pos 5

/-- The part of an enabled frame before the grid is drawn (lines 52-82). -/
def onGUI_palette (app : StudioApp) (s : EditorPlugin) (gui : Gui) :
    Except Fault (EditorPlugin × List HostCall) :=
  let s1 := onGUI_inputs s gui
  let r2 := onGUI_add app s1 gui
  match onGUI_delete r2.1 gui with
  | .error e => .error e
  | .ok (s3, dels) =>
    match onGUI_tiles s3 gui with
    | .error e => .error e
    | .ok (s4, tiles) => .ok (s4, r2.2 ++ dels ++ tiles)

/-- The method `onGUI`: the fields after the frame and the host calls it made. -/
def onGUI (app : StudioApp) (s : EditorPlugin) (gui : Gui) :
    Except Fault (EditorPlugin × List HostCall) :=
  if gui.begin_ = true then
    let s0 := onGUI_checkbox s gui
    if s0.m_enabled = true then
      match onGUI_palette app s0 gui with
      | .error e => .error e
      | .ok (s4, calls) => .ok (s4, calls ++ onGUI_grid app s4)
    else .ok (s0, [])
  else .ok (s, [])

/-! ## Derived notions used in the statements -/

/-- The `addDebugLine` calls of a trace. -/
def debugLines (calls : List HostCall) : List HostCall :=
  calls.filter fun c => match c with
    | HostCall.addDebugLine _ _ _ => true
    | _ => false

/-- The tiles of a trace that were drawn as selected. -/
def selectedTiles (calls : List HostCall) : List HostCall :=
  calls.filter fun c => match c with
    | HostCall.tile _ true => true
    | _ => false

/-- The segment parallel to the x axis at `k` cells from `centre` along z, at the given
height: it spans five cells, two and a half on either side of `centre`. -/
def xSegment (centre cell : Vec3) (height k : ℚ) : HostCall :=
  HostCall.addDebugLine ⟨centre.x - 5 / 2 * cell.x, height, centre.z + k * cell.z⟩
    ⟨centre.x + 5 / 2 * cell.x, height, centre.z + k * cell.z⟩ 0xff00ffff

/-- The segment parallel to the z axis at `k` cells from `centre` along x, at the given
height: it spans five cells, two and a half on either side of `centre`. -/
def zSegment (centre cell : Vec3) (height k : ℚ) : HostCall :=
  HostCall.addDebugLine ⟨centre.x + k * cell.x, height, centre.z - 5 / 2 * cell.z⟩
    ⟨centre.x + k * cell.x, height, centre.z + 5 / 2 * cell.z⟩ 0xff00ffff

/-- `v` is an integer multiple of `c`. -/
def IsMultiple (v c : ℚ) : Prop := ∃ k : ℤ, v = (k : ℚ) * c

/-- `r` is the centre of the cell of size `c` that contains `h`. -/
def IsCellCentre (h c r : ℚ) : Prop :=
  r = (⌊h / c⌋ : ℚ) * c + c / 2 ∧ IsMultiple (r - c / 2) c ∧ |h - r| ≤ |c| / 2 ∧
    (0 < c → r - c / 2 ≤ h ∧ h < r + c / 2)

/-- The field ranges of a plugin state: the palette size fits `u32`. -/
def EditorPlugin.InRange (s : EditorPlugin) : Prop := s.m_models.length < 2 ^ 32

/-- States the plugin can be in: the initial one, and the ones left by a completed
`onGUI` frame or `onMouseDown` call, whatever the host answers. -/
inductive Reachable : EditorPlugin → Prop where
  | initial : Reachable EditorPlugin.initial
  | gui (app : StudioApp) (gui : Gui) (s s1 : EditorPlugin) (calls : List HostCall) :
      Reachable s → onGUI app s gui = .ok (s1, calls) → Reachable s1
  | mouse (app : StudioApp) (s s1 : EditorPlugin) (b : Bool) (calls : List HostCall) :
      Reachable s → onMouseDown app s = .ok (b, s1, calls) → Reachable s1

/-- A host for the examples: the cursor ray points straight down from `(13/4, 10, -7/4)`
and the plane test is the usual one (no hit when the ray is parallel to the plane). -/
def sampleApp : StudioApp :=
  { mouseRay := ⟨⟨13 / 4, 10, -7 / 4⟩, ⟨0, -1, 0⟩⟩
    getRayPlaneIntersecion := fun origin dir point normal =>
      let d := dir.x * normal.x + dir.y * normal.y + dir.z * normal.z
      if d = 0 then none
      else some (((point.x - origin.x) * normal.x + (point.y - origin.y) * normal.y +
        (point.z - origin.z) * normal.z) / d)
    addEntity := ⟨7⟩
    loadModel := fun path => ⟨path.length, path⟩ }

/-- A frame in which no widget is touched and the panel is wide enough for two columns. -/
def idleGui : Gui :=
  { begin_ := true, enabled_pressed := false, cell_size := none, grid_offset := none,
    floor := none, resource := none, del := false, avail_x := 250, thumbnail_width := 96,
    item_spacing_x := 4, clicked := fun _ => false }

/-- The idle frame, except that the delete shortcut fires. -/
def deleteGui : Gui := { idleGui with del := true }

/-- The idle frame, except that the second tile (index 1) is clicked. -/
def clickSecondGui : Gui := { idleGui with clicked := fun j => decide (j = 1) }

/-- The idle frame in a panel narrower than one tile: 50 wide, tiles 96 + 4 apart. -/
def narrowGui : Gui := { idleGui with avail_x := 50 }

/-- A palette of two models with the first one selected. -/
def sampleState : EditorPlugin :=
  { m_models := [⟨1, "models/wall.fbx"⟩, ⟨2, "models/floor.fbx"⟩], m_selected := 0, m_floor := 2,
    m_cell_size := ⟨2, 3, 2⟩, m_grid_offset := 1 / 2, m_enabled := true }

/-- The sample palette with the plugin switched off. -/
def disabledState : EditorPlugin := { sampleState with m_enabled := false }

/-! ## Snapping -/

theorem alignToCell_centre (h c : ℚ) (hc : c ≠ 0) : IsCellCentre h c (alignToCell h c) := by
  have h1 : ((⌊h / c⌋ : ℤ) : ℚ) ≤ h / c := Int.floor_le _
  have h2 : h / c < ((⌊h / c⌋ : ℤ) : ℚ) + 1 := Int.lt_floor_add_one _
  have e : alignToCell h c = (⌊h / c⌋ : ℚ) * c + c / 2 := by
    simp only [alignToCell, if_neg hc]; ring
  have hdiv : h / c * c = h := div_mul_cancel₀ h hc
  refine ⟨e, ⟨⌊h / c⌋, by rw [e]; ring⟩, ?_, ?_⟩
  · rw [e]
    rcases lt_or_gt_of_ne hc with hneg | hpos
    · have a1 : h ≤ (⌊h / c⌋ : ℚ) * c := by
        have := mul_le_mul_of_nonpos_right h1 hneg.le
        rwa [hdiv] at this
      have a2 : ((⌊h / c⌋ : ℚ) + 1) * c < h := by
        have := mul_lt_mul_of_neg_right h2 hneg
        rwa [hdiv] at this
      rw [abs_of_neg hneg, abs_le]
      constructor <;> linarith
    · have a1 : (⌊h / c⌋ : ℚ) * c ≤ h := by
        have := mul_le_mul_of_nonneg_right h1 hpos.le
        rwa [hdiv] at this
      have a2 : h < ((⌊h / c⌋ : ℚ) + 1) * c := by
        have := mul_lt_mul_of_pos_right h2 hpos
        rwa [hdiv] at this
      rw [abs_of_pos hpos, abs_le]
      constructor <;> linarith
  · intro hpos
    rw [e]
    have a1 : (⌊h / c⌋ : ℚ) * c ≤ h := by
      have := mul_le_mul_of_nonneg_right h1 hpos.le
      rwa [hdiv] at this
    have a2 : h < ((⌊h / c⌋ : ℚ) + 1) * c := by
      have := mul_lt_mul_of_pos_right h2 hpos
      rwa [hdiv] at this
    constructor <;> linarith

theorem getIntersectPlanePos_of_hit (app : StudioApp) (s : EditorPlugin) (t : ℚ)
    (hit : rayHit app s = some t) :
    getIntersectPlanePos app s =
      some ⟨alignToCell (hitPoint app.mouseRay t).x s.m_cell_size.x,
        (s.m_floor : ℚ) * s.m_cell_size.y,
        alignToCell (hitPoint app.mouseRay t).z s.m_cell_size.z⟩ := by
  simp [getIntersectPlanePos, hit]

theorem getIntersectPlanePos_of_miss (app : StudioApp) (s : EditorPlugin)
    (miss : rayHit app s = none) : getIntersectPlanePos app s = none := by
  simp [getIntersectPlanePos, miss]

/-- C3: when the ray hits the plane at parameter `t`, `getIntersectPlanePos` returns
a position whose `y` is `m_floor * m_cell_size.y` (whatever `m_grid_offset` is) and
whose `x` (for a non-zero `m_cell_size.x`) and `z` (for a non-zero `m_cell_size.z`)
are the centre of the cell containing the hit point: `r = floor(h/c)*c + c/2`,
`r - c/2` is an integer multiple of `c`, `|h - r| <= |c|/2`, and
`r - c/2 <= h < r + c/2` when `c > 0`. -/
theorem getIntersectPlanePos_cell_centre (app : StudioApp) (s : EditorPlugin) (t : ℚ)
    (hit : rayHit app s = some t) :
    ∃ r : Vec3, getIntersectPlanePos app s = some r ∧
      r.y = (s.m_floor : ℚ) * s.m_cell_size.y ∧
      (s.m_cell_size.x ≠ 0 → IsCellCentre (hitPoint app.mouseRay t).x s.m_cell_size.x r.x) ∧
      (s.m_cell_size.z ≠ 0 → IsCellCentre (hitPoint app.mouseRay t).z s.m_cell_size.z r.z) :=
  ⟨_, getIntersectPlanePos_of_hit app s t hit, rfl,
    fun hx => alignToCell_centre _ _ hx, fun hz => alignToCell_centre _ _ hz⟩

theorem sample_rayHit : rayHit sampleApp sampleState = some (7 / 2) := by
  simp [rayHit, sampleApp, sampleState, planeY]
  norm_num

theorem getIntersectPlanePos_cell_centre_witness :
    rayHit sampleApp sampleState = some (7 / 2) ∧
    ∃ r : Vec3, getIntersectPlanePos sampleApp sampleState = some r ∧
      r.y = (sampleState.m_floor : ℚ) * sampleState.m_cell_size.y ∧
      (sampleState.m_cell_size.x ≠ 0 →
        IsCellCentre (hitPoint sampleApp.mouseRay (7 / 2)).x sampleState.m_cell_size.x r.x) ∧
      (sampleState.m_cell_size.z ≠ 0 →
        IsCellCentre (hitPoint sampleApp.mouseRay (7 / 2)).z sampleState.m_cell_size.z r.z) :=
  ⟨sample_rayHit, getIntersectPlanePos_cell_centre sampleApp sampleState (7 / 2) sample_rayHit⟩

/-! ## onMouseDown -/

theorem u32_le (n : Nat) : u32 n ≤ n := Nat.mod_le _ _

theorem u32_of_lt (n : Nat) (h : n < 2 ^ 32) : u32 n = n := Nat.mod_eq_of_lt h

theorem u32_lt (n : Nat) : u32 n < 2 ^ 32 := Nat.mod_lt _ (by norm_num)

theorem onMouseDown_of_hit (app : StudioApp) (s : EditorPlugin) (t : ℚ)
    (hrange : s.InRange) (hen : s.m_enabled = true) (hsel : s.m_selected < s.m_models.length)
    (hit : rayHit app s = some t) :
    ∃ (m : Model) (pos : Vec3),
      s.m_models[s.m_selected]? = some m ∧ getIntersectPlanePos app s = some pos ∧
      onMouseDown app s = .ok (true, s, insertCommands app.addEntity m.path pos) := by
  have hm : s.m_models[s.m_selected]? = some (s.m_models[s.m_selected]) :=
    List.getElem?_eq_getElem hsel
  have hguard : ¬ s.m_selected ≥ u32 s.m_models.length := by
    rw [u32_of_lt _ hrange]; omega
  refine ⟨s.m_models[s.m_selected], _, hm, getIntersectPlanePos_of_hit app s t hit, ?_⟩
  simp only [onMouseDown, hen, hguard, getIntersectPlanePos_of_hit app s t hit, hm]
  simp

/-- C1: with `m_enabled` true, `m_selected` inside the palette and a ray that hits the
plane `y = m_floor * m_cell_size.y + m_grid_offset`, `onMouseDown` returns true, leaves
every field as it was, and its host calls are exactly `beginCommandGroup("gridmap_add")`,
`addEntity` (giving `e`), `addComponent` of the model instance type on `e`, `setProperty`
of `"Source"` on `e` to the path of `m_models[m_selected]`, `setEntitiesPositions` of `e`
to the position computed by `getIntersectPlanePos`, `endCommandGroup`. -/
theorem onMouseDown_inserts (app : StudioApp) (s : EditorPlugin) (t : ℚ)
    (hrange : s.InRange) (hen : s.m_enabled = true) (hsel : s.m_selected < s.m_models.length)
    (hit : app.getRayPlaneIntersecion app.mouseRay.origin app.mouseRay.dir
      ⟨0, (s.m_floor : ℚ) * s.m_cell_size.y + s.m_grid_offset, 0⟩ ⟨0, 1, 0⟩ = some t) :
    ∃ (m : Model) (pos : Vec3),
      s.m_models[s.m_selected]? = some m ∧ getIntersectPlanePos app s = some pos ∧
      onMouseDown app s = .ok (true, s,
        [ HostCall.beginCommandGroup "gridmap_add",
          HostCall.addEntity app.addEntity,
          HostCall.addComponent app.addEntity MODEL_INSTANCE_TYPE,
          HostCall.setProperty MODEL_INSTANCE_TYPE none (-1) "Source" app.addEntity m.path,
          HostCall.setEntitiesPositions app.addEntity pos,
          HostCall.endCommandGroup ]) := by
  obtain ⟨m, pos, hm, hpos, hrun⟩ := onMouseDown_of_hit app s t hrange hen hsel hit
  exact ⟨m, pos, hm, hpos, hrun⟩

theorem onMouseDown_inserts_witness :
    ∃ (m : Model) (pos : Vec3),
      sampleState.m_models[sampleState.m_selected]? = some m ∧
      getIntersectPlanePos sampleApp sampleState = some pos ∧
      onMouseDown sampleApp sampleState = .ok (true, sampleState,
        [ HostCall.beginCommandGroup "gridmap_add",
          HostCall.addEntity sampleApp.addEntity,
          HostCall.addComponent sampleApp.addEntity MODEL_INSTANCE_TYPE,
          HostCall.setProperty MODEL_INSTANCE_TYPE none (-1) "Source" sampleApp.addEntity m.path,
          HostCall.setEntitiesPositions sampleApp.addEntity pos,
          HostCall.endCommandGroup ]) :=
  onMouseDown_inserts sampleApp sampleState (7 / 2)
    (by simp [EditorPlugin.InRange, sampleState])
    (by simp [sampleState])
    (by simp [sampleState])
    (by simp [sampleApp, sampleState]; norm_num)

theorem onMouseDown_disabled (app : StudioApp) (s : EditorPlugin) (h : s.m_enabled = false) :
    onMouseDown app s = .ok (false, s, []) := by
  simp [onMouseDown, h]

theorem onMouseDown_unselected (app : StudioApp) (s : EditorPlugin)
    (h : s.m_selected ≥ s.m_models.length) : onMouseDown app s = .ok (false, s, []) := by
  have hg : s.m_selected ≥ u32 s.m_models.length := le_trans (u32_le _) h
  by_cases he : s.m_enabled = false
  · exact onMouseDown_disabled app s he
  · simp [onMouseDown, he, hg]

theorem onMouseDown_miss (app : StudioApp) (s : EditorPlugin) (hrange : s.InRange)
    (hen : s.m_enabled = true) (hsel : s.m_selected < s.m_models.length)
    (miss : rayHit app s = none) : onMouseDown app s = .ok (true, s, []) := by
  have hguard : ¬ s.m_selected ≥ u32 s.m_models.length := by
    rw [u32_of_lt _ hrange]; omega
  simp [onMouseDown, hen, hguard, getIntersectPlanePos_of_miss app s miss]

/-- C2: `onMouseDown` returns false, makes no host call and changes no field when
`m_enabled` is false or `m_selected >= m_models.size()`; it returns true, makes no host
call and changes no field when the plugin is enabled, the selection is inside the palette
and the ray misses the plane; and an `addEntity` call occurs if and only if the plugin is
enabled, `m_selected < m_models.size()` and the ray hits the plane. -/
theorem onMouseDown_guards (app : StudioApp) (s : EditorPlugin)
    (hrange : s.InRange) :
    ((s.m_enabled = false ∨ s.m_selected ≥ s.m_models.length) →
      onMouseDown app s = .ok (false, s, [])) ∧
    (s.m_enabled = true → s.m_selected < s.m_models.length → rayHit app s = none →
      onMouseDown app s = .ok (true, s, [])) ∧
    ((∃ b s1 calls e, onMouseDown app s = .ok (b, s1, calls) ∧ HostCall.addEntity e ∈ calls) ↔
      (s.m_enabled = true ∧ s.m_selected < s.m_models.length ∧ (rayHit app s).isSome = true)) := by
  refine ⟨?_, fun hen hsel miss => onMouseDown_miss app s hrange hen hsel miss, ?_⟩
  · rintro (h | h)
    · exact onMouseDown_disabled app s h
    · exact onMouseDown_unselected app s h
  · constructor
    · rintro ⟨b, s1, calls, e, hrun, hmem⟩
      by_cases hen : s.m_enabled = true
      · by_cases hsel : s.m_selected < s.m_models.length
        · cases hhit : rayHit app s with
          | some t => exact ⟨hen, hsel, rfl⟩
          | none =>
            rw [onMouseDown_miss app s hrange hen hsel hhit] at hrun
            simp only [Except.ok.injEq, Prod.mk.injEq] at hrun
            rw [← hrun.2.2] at hmem
            simp at hmem
        · rw [onMouseDown_unselected app s (not_lt.mp hsel)] at hrun
          simp only [Except.ok.injEq, Prod.mk.injEq] at hrun
          rw [← hrun.2.2] at hmem
          simp at hmem
      · have hdis : s.m_enabled = false := by simpa using hen
        rw [onMouseDown_disabled app s hdis] at hrun
        simp only [Except.ok.injEq, Prod.mk.injEq] at hrun
        rw [← hrun.2.2] at hmem
        simp at hmem
    · rintro ⟨hen, hsel, hhit⟩
      obtain ⟨t, ht⟩ := Option.isSome_iff_exists.mp hhit
      obtain ⟨m, pos, -, -, hrun⟩ := onMouseDown_of_hit app s t hrange hen hsel ht
      exact ⟨true, s, _, app.addEntity, hrun, by simp [insertCommands]⟩

theorem onMouseDown_guards_witness :
    disabledState.InRange ∧ disabledState.m_enabled = false ∧
    onMouseDown sampleApp disabledState = .ok (false, disabledState, []) :=
  ⟨by simp [EditorPlugin.InRange, disabledState, sampleState], rfl,
    (onMouseDown_guards sampleApp disabledState
      (by simp [EditorPlugin.InRange, disabledState, sampleState])).1 (Or.inl rfl)⟩

/-! ## The floor input -/

theorem onGUI_delete_fires (s : EditorPlugin) (gui : Gui) (hrange : s.InRange)
    (hdel : gui.del = true) (hsel : s.m_selected < s.m_models.length) :
    onGUI_delete s gui =
      .ok ({ s with m_models := s.m_models.eraseIdx s.m_selected },
        [HostCall.decRefCount (s.m_models[s.m_selected])]) := by
  have hguard : s.m_selected < u32 s.m_models.length := by
    rw [u32_of_lt _ hrange]; exact hsel
  have hm : s.m_models[s.m_selected]? = some (s.m_models[s.m_selected]) :=
    List.getElem?_eq_getElem hsel
  simp [onGUI_delete, hdel, hguard, hm, Array_erase]

theorem onGUI_delete_skips (s : EditorPlugin) (gui : Gui)
    (h : gui.del = false ∨ s.m_selected ≥ s.m_models.length) :
    onGUI_delete s gui = .ok (s, []) := by
  have hn : ¬ (gui.del = true ∧ s.m_selected < u32 s.m_models.length) := by
    rintro ⟨h1, h2⟩
    rcases h with h | h
    · rw [h] at h1; cases h1
    · have := u32_le s.m_models.length
      omega
  simp only [onGUI_delete, if_neg hn]

theorem eraseIdx_eq_take_drop (xs : List Model) (k : Nat) :
    xs.eraseIdx k = xs.take k ++ xs.drop (k + 1) := by
  induction xs generalizing k with
  | nil => simp
  | cons x xs ih =>
    cases k with
    | zero => simp
    | succ k => simp [ih]

/-- C5: when the delete shortcut fires with `m_selected < m_models.size()`, the delete
step of `onGUI` leaves the old palette without the element at index `m_selected` (the
elements before it, then the elements after it, in their old order), one element
shorter, calls `decRefCount` once, on the removed model, and keeps `m_selected` and the
other fields, so that `m_selected` now designates the model that followed (or none).
When the shortcut does not fire or `m_selected >= m_models.size()`, the step changes
nothing and makes no call. -/
theorem onGUI_delete_removes_selected (s : EditorPlugin) (gui : Gui) (hrange : s.InRange) :
    (gui.del = true → s.m_selected < s.m_models.length →
      ∃ (m : Model) (s1 : EditorPlugin),
        s.m_models[s.m_selected]? = some m ∧
        onGUI_delete s gui = .ok (s1, [HostCall.decRefCount m]) ∧
        s1.m_models = s.m_models.take s.m_selected ++ s.m_models.drop (s.m_selected + 1) ∧
        s1.m_models.length + 1 = s.m_models.length ∧
        s1.m_selected = s.m_selected ∧
        s1.m_models[s1.m_selected]? = s.m_models[s.m_selected + 1]? ∧
        s1.m_floor = s.m_floor ∧ s1.m_cell_size = s.m_cell_size ∧
        s1.m_grid_offset = s.m_grid_offset ∧ s1.m_enabled = s.m_enabled) ∧
    ((gui.del = false ∨ s.m_selected ≥ s.m_models.length) →
      onGUI_delete s gui = .ok (s, [])) := by
  refine ⟨fun hdel hsel => ?_, onGUI_delete_skips s gui⟩
  refine ⟨s.m_models[s.m_selected], _, List.getElem?_eq_getElem hsel,
    onGUI_delete_fires s gui hrange hdel hsel, eraseIdx_eq_take_drop _ _, ?_, rfl, ?_,
    rfl, rfl, rfl, rfl⟩
  · simp only [List.length_eraseIdx, if_pos hsel]
    omega
  · simp only [List.getElem?_eraseIdx, lt_irrefl, if_false]

theorem onGUI_delete_removes_selected_witness :
    sampleState.InRange ∧
    ∃ (m : Model) (s1 : EditorPlugin),
      sampleState.m_models[sampleState.m_selected]? = some m ∧
      onGUI_delete sampleState deleteGui = .ok (s1, [HostCall.decRefCount m]) ∧
      s1.m_models = sampleState.m_models.take sampleState.m_selected ++
        sampleState.m_models.drop (sampleState.m_selected + 1) ∧
      s1.m_models.length + 1 = sampleState.m_models.length ∧
      s1.m_selected = sampleState.m_selected ∧
      s1.m_models[s1.m_selected]? = sampleState.m_models[sampleState.m_selected + 1]? ∧
      s1.m_floor = sampleState.m_floor ∧ s1.m_cell_size = sampleState.m_cell_size ∧
      s1.m_grid_offset = sampleState.m_grid_offset ∧ s1.m_enabled = sampleState.m_enabled :=
  ⟨by simp [EditorPlugin.InRange, sampleState],
    (onGUI_delete_removes_selected sampleState deleteGui
      (by simp [EditorPlugin.InRange, sampleState])).1
      (by simp [deleteGui, idleGui]) (by simp [sampleState])⟩

/-! ## The palette tiles -/

theorem tileLoop_cons_ok (cols : Nat) (clicked : Nat → Bool) (m : Model) (ms : List Model)
    (i sel sel2 : Nat) (calls : List HostCall)
    (h : tileLoop cols clicked (m :: ms) i sel = .ok (sel2, calls)) :
    cols ≠ 0 ∧ ∃ rest,
      tileLoop cols clicked ms (i + 1) (clickTile (clicked i) sel (u32 i)) = .ok (sel2, rest) ∧
      calls = (if u32 i % cols ≠ 0 then [HostCall.sameLine] else []) ++
        [HostCall.tile m.path (decide (sel = u32 i))] ++ rest := by
  by_cases hc : cols = 0
  · simp [tileLoop, hc] at h
  · refine ⟨hc, ?_⟩
    simp only [tileLoop, if_neg hc] at h
    cases hr : tileLoop cols clicked ms (i + 1) (clickTile (clicked i) sel (u32 i)) with
    | error e => rw [hr] at h; cases h
    | ok r =>
      obtain ⟨sel3, rest⟩ := r
      rw [hr] at h
      simp only [Except.ok.injEq, Prod.mk.injEq] at h
      exact ⟨rest, by rw [h.1], h.2.symm⟩

theorem tileLoop_cons_of_ok (cols : Nat) (clicked : Nat → Bool) (m : Model) (ms : List Model)
    (i sel sel2 : Nat) (rest : List HostCall) (hc : cols ≠ 0)
    (h : tileLoop cols clicked ms (i + 1) (clickTile (clicked i) sel (u32 i)) = .ok (sel2, rest)) :
    tileLoop cols clicked (m :: ms) i sel =
      .ok (sel2, (if u32 i % cols ≠ 0 then [HostCall.sameLine] else []) ++
        [HostCall.tile m.path (decide (sel = u32 i))] ++ rest) := by
  simp only [tileLoop, if_neg hc, h]

theorem tileLoop_defined (cols : Nat) (clicked : Nat → Bool) (hc : cols ≠ 0) (ms : List Model) :
    ∀ i sel, ∃ sel2 calls, tileLoop cols clicked ms i sel = .ok (sel2, calls) := by
  induction ms with
  | nil => intro i sel; exact ⟨sel, [], rfl⟩
  | cons m ms ih =>
    intro i sel
    obtain ⟨sel2, rest, h⟩ := ih (i + 1) (clickTile (clicked i) sel (u32 i))
    exact ⟨sel2, _, tileLoop_cons_of_ok cols clicked m ms i sel sel2 rest hc h⟩

theorem tileLoop_nil (cols : Nat) (clicked : Nat → Bool) (i sel : Nat) :
    tileLoop cols clicked [] i sel = .ok (sel, []) := rfl

/-- Without a click on the tiles still to draw the loop keeps `m_selected`. -/
theorem tileLoop_no_click (cols : Nat) (clicked : Nat → Bool) (ms : List Model) :
    ∀ i sel sel2 calls, (∀ j, i ≤ j → clicked j = false) →
      tileLoop cols clicked ms i sel = .ok (sel2, calls) → sel2 = sel := by
  induction ms with
  | nil =>
    intro i sel sel2 calls _ h
    rw [tileLoop_nil] at h
    simp only [Except.ok.injEq, Prod.mk.injEq] at h
    exact h.1.symm
  | cons m ms ih =>
    intro i sel sel2 calls hno h
    obtain ⟨-, rest, hrest, -⟩ := tileLoop_cons_ok cols clicked m ms i sel sel2 calls h
    have := ih (i + 1) _ sel2 rest (fun j hj => hno j (by omega)) hrest
    rw [this, clickTile, hno i le_rfl]
    simp

/-- A single click on tile `idx` toggles the selection of `idx`. -/
theorem tileLoop_single_click (cols : Nat) (clicked : Nat → Bool) (idx : Nat)
    (hclick : ∀ j, clicked j = true ↔ j = idx) (ms : List Model) :
    ∀ i sel sel2 calls, i ≤ idx → idx < i + ms.length → i + ms.length ≤ 2 ^ 32 →
      tileLoop cols clicked ms i sel = .ok (sel2, calls) →
      sel2 = if sel = idx then NO_SELECTION else idx := by
  induction ms with
  | nil => intro i sel sel2 calls h1 h2; simp at h2; omega
  | cons m ms ih =>
    intro i sel sel2 calls h1 h2 h3 h
    simp only [List.length_cons] at h2 h3
    obtain ⟨-, rest, hrest, -⟩ := tileLoop_cons_ok cols clicked m ms i sel sel2 calls h
    have hu : u32 i = i := u32_of_lt i (by omega)
    by_cases hi : i = idx
    · have hno : ∀ j, i + 1 ≤ j → clicked j = false := by
        intro j hj
        have : ¬ clicked j = true := fun hc => by have := (hclick j).1 hc; omega
        simpa using this
      have := tileLoop_no_click cols clicked ms (i + 1) _ sel2 rest hno hrest
      rw [this, clickTile, if_pos ((hclick i).2 hi), hu, hi]
    · have hf : clicked i = false := by
        have : ¬ clicked i = true := fun hc => hi ((hclick i).1 hc)
        simpa using this
      have := ih (i + 1) _ sel2 rest (by omega) (by omega) (by omega) hrest
      rw [this, clickTile, hf]
      simp

theorem selectedTiles_append (a b : List HostCall) :
    selectedTiles (a ++ b) = selectedTiles a ++ selectedTiles b := by
  simp [selectedTiles]

theorem selectedTiles_sameLine (cond : Prop) [Decidable cond] :
    selectedTiles (if cond then [HostCall.sameLine] else []) = [] := by
  split <;> simp [selectedTiles]

/-- When `m_selected` is the sentinel or an index already passed, no further tile is
drawn as selected, whatever is clicked. -/
theorem tileLoop_none_selected (cols : Nat) (clicked : Nat → Bool) (ms : List Model) :
    ∀ i sel sel2 calls, (sel = NO_SELECTION ∨ sel < i) → i + ms.length < 2 ^ 32 →
      tileLoop cols clicked ms i sel = .ok (sel2, calls) → selectedTiles calls = [] := by
  induction ms with
  | nil =>
    intro i sel sel2 calls _ _ h
    rw [tileLoop_nil] at h
    simp only [Except.ok.injEq, Prod.mk.injEq] at h
    rw [← h.2]; rfl
  | cons m ms ih =>
    intro i sel sel2 calls hsel hlen h
    simp only [List.length_cons] at hlen
    obtain ⟨-, rest, hrest, hcalls⟩ := tileLoop_cons_ok cols clicked m ms i sel sel2 calls h
    have hu : u32 i = i := u32_of_lt i (by omega)
    have hne : sel ≠ i := by
      rcases hsel with h1 | h1
      · rw [h1, NO_SELECTION]; omega
      · omega
    have hnext : clickTile (clicked i) sel (u32 i) = NO_SELECTION ∨
        clickTile (clicked i) sel (u32 i) < i + 1 := by
      rw [clickTile, hu]
      by_cases hc : clicked i = true
      · rw [if_pos hc, if_neg hne]; right; omega
      · rw [if_neg hc]
        rcases hsel with h1 | h1
        · left; exact h1
        · right; omega
    have hr := ih (i + 1) _ sel2 rest hnext (by omega) hrest
    rw [hcalls, selectedTiles_append, selectedTiles_append, selectedTiles_sameLine, hr, hu]
    simp [selectedTiles, hne]

/-- At most one tile of a frame is drawn as selected. -/
theorem tileLoop_at_most_one (cols : Nat) (clicked : Nat → Bool) (ms : List Model) :
    ∀ i sel sel2 calls, i + ms.length < 2 ^ 32 →
      tileLoop cols clicked ms i sel = .ok (sel2, calls) → (selectedTiles calls).length ≤ 1 := by
  induction ms with
  | nil =>
    intro i sel sel2 calls _ h
    rw [tileLoop_nil] at h
    simp only [Except.ok.injEq, Prod.mk.injEq] at h
    rw [← h.2]; simp [selectedTiles]
  | cons m ms ih =>
    intro i sel sel2 calls hlen h
    simp only [List.length_cons] at hlen
    obtain ⟨-, rest, hrest, hcalls⟩ := tileLoop_cons_ok cols clicked m ms i sel sel2 calls h
    have hu : u32 i = i := u32_of_lt i (by omega)
    rw [hcalls, selectedTiles_append, selectedTiles_append, selectedTiles_sameLine, hu]
    by_cases hs : sel = i
    · have hnext : clickTile (clicked i) sel (u32 i) = NO_SELECTION ∨
          clickTile (clicked i) sel (u32 i) < i + 1 := by
        rw [clickTile, hu]
        by_cases hc : clicked i = true
        · rw [if_pos hc, if_pos hs]; left; rfl
        · rw [if_neg hc]; right; omega
      have hr := tileLoop_none_selected cols clicked ms (i + 1) _ sel2 rest hnext (by omega) hrest
      rw [hr]
      simp [selectedTiles, hs]
    · have hr := ih (i + 1) _ sel2 rest (by omega) hrest
      simpa [selectedTiles, hs] using hr

theorem onGUI_tiles_of_loop (s : EditorPlugin) (gui : Gui) (cols sel : Nat)
    (calls : List HostCall) (hcols : num_cols gui = .ok cols)
    (hloop : tileLoop cols gui.clicked s.m_models 0 s.m_selected = .ok (sel, calls)) :
    onGUI_tiles s gui = .ok ({ s with m_selected := sel }, calls) := by
  simp only [onGUI_tiles, hcols, hloop]

theorem onGUI_tiles_ok (s s1 : EditorPlugin) (gui : Gui) (calls : List HostCall)
    (h : onGUI_tiles s gui = .ok (s1, calls)) :
    ∃ cols, num_cols gui = .ok cols ∧
      tileLoop cols gui.clicked s.m_models 0 s.m_selected = .ok (s1.m_selected, calls) ∧
      s1 = { s with m_selected := s1.m_selected } := by
  unfold onGUI_tiles at h
  cases hc : num_cols gui with
  | error e => rw [hc] at h; cases h
  | ok cols =>
    simp only [hc] at h
    cases hl : tileLoop cols gui.clicked s.m_models 0 s.m_selected with
    | error e => rw [hl] at h; cases h
    | ok r =>
      obtain ⟨sel, cs⟩ := r
      simp only [hl, Except.ok.injEq, Prod.mk.injEq] at h
      refine ⟨cols, rfl, ?_, ?_⟩
      · rw [← h.1, ← h.2]; exact hl
      · rw [← h.1]

theorem onMouseDown_no_selection (app : StudioApp) (s : EditorPlugin)
    (h : s.m_selected = NO_SELECTION) : onMouseDown app s = .ok (false, s, []) := by
  have hg : s.m_selected ≥ u32 s.m_models.length := by
    have := u32_lt s.m_models.length
    rw [h, NO_SELECTION]; omega
  by_cases he : s.m_enabled = false
  · exact onMouseDown_disabled app s he
  · simp [onMouseDown, he, hg]

theorem sample_num_cols : num_cols idleGui = .ok 2 := by
  have h1 : ¬ ((96 : ℚ) + 4 = 0) := by norm_num
  have h2 : trunc ((250 : ℚ) / (96 + 4)) = 2 := by
    have h0 : (0 : ℚ) ≤ 250 / (96 + 4) := by norm_num
    rw [trunc, if_pos h0, Int.floor_eq_iff]
    constructor <;> norm_num
  simp only [num_cols, idleGui, h1, h2]
  simp

/-- C6: a frame in which exactly the tile `idx` is clicked sets `m_selected` to `idx` if
it was not `idx`, and to `0xFFFFFFFF` if it was, leaving the palette and every other
field as they were; at most one tile of a frame is drawn as selected; and while
`m_selected` is `0xFFFFFFFF` no tile is drawn as selected and `onMouseDown` returns
false without any host call, for every palette size. -/
theorem tile_click_toggles_selection (app : StudioApp) (s : EditorPlugin) (gui : Gui)
    (cols : Nat) (hrange : s.InRange) (hcols : num_cols gui = .ok cols) (hpos : cols ≠ 0) :
    (∀ idx, idx < s.m_models.length → (∀ j, gui.clicked j = true ↔ j = idx) →
      ∃ calls, onGUI_tiles s gui =
        .ok ({ s with m_selected := if s.m_selected = idx then NO_SELECTION else idx }, calls)) ∧
    (∃ s1 calls, onGUI_tiles s gui = .ok (s1, calls) ∧ s1.m_models = s.m_models ∧
      (selectedTiles calls).length ≤ 1 ∧
      (s.m_selected = NO_SELECTION → selectedTiles calls = [])) ∧
    (s.m_selected = NO_SELECTION → onMouseDown app s = .ok (false, s, [])) := by
  obtain ⟨sel, calls, hloop⟩ := tileLoop_defined cols gui.clicked hpos s.m_models 0 s.m_selected
  have hrun := onGUI_tiles_of_loop s gui cols sel calls hcols hloop
  have hlen : 0 + s.m_models.length < 2 ^ 32 := by simpa using hrange
  refine ⟨?_, ⟨_, calls, hrun, rfl, ?_, ?_⟩, onMouseDown_no_selection app s⟩
  · intro idx hidx hclick
    have := tileLoop_single_click cols gui.clicked idx hclick s.m_models 0 s.m_selected sel calls
      (Nat.zero_le _) (by omega) (by omega) hloop
    exact ⟨calls, by rw [hrun, this]⟩
  · exact tileLoop_at_most_one cols gui.clicked s.m_models 0 s.m_selected sel calls hlen hloop
  · intro hs
    exact tileLoop_none_selected cols gui.clicked s.m_models 0 s.m_selected sel calls
      (Or.inl hs) hlen hloop

theorem tile_click_toggles_selection_witness :
    sampleState.InRange ∧ num_cols clickSecondGui = .ok 2 ∧
    ∃ calls, onGUI_tiles sampleState clickSecondGui =
      .ok ({ sampleState with
        m_selected := if sampleState.m_selected = 1 then NO_SELECTION else 1 }, calls) :=
  ⟨by simp [EditorPlugin.InRange, sampleState], sample_num_cols,
    (tile_click_toggles_selection sampleApp sampleState clickSecondGui 2
      (by simp [EditorPlugin.InRange, sampleState]) sample_num_cols (by decide)).1 1
      (by simp [sampleState]) (by simp [clickSecondGui, idleGui])⟩

/-! ## The frame as a whole -/

theorem debugLines_append (a b : List HostCall) :
    debugLines (a ++ b) = debugLines a ++ debugLines b := by
  simp [debugLines]

theorem tileLoop_no_debugLines (cols : Nat) (clicked : Nat → Bool) (ms : List Model) :
    ∀ i sel sel2 calls, tileLoop cols clicked ms i sel = .ok (sel2, calls) →
      debugLines calls = [] := by
  induction ms with
  | nil =>
    intro i sel sel2 calls h
    rw [tileLoop_nil] at h
    simp only [Except.ok.injEq, Prod.mk.injEq] at h
    rw [← h.2]; rfl
  | cons m ms ih =>
    intro i sel sel2 calls h
    obtain ⟨-, rest, hrest, hcalls⟩ := tileLoop_cons_ok cols clicked m ms i sel sel2 calls h
    rw [hcalls, debugLines_append, debugLines_append, ih _ _ _ _ hrest]
    split <;> simp [debugLines]

theorem onGUI_delete_defined (s : EditorPlugin) (gui : Gui) :
    ∃ s1 calls, onGUI_delete s gui = .ok (s1, calls) ∧ debugLines calls = [] ∧
      s1.m_floor = s.m_floor ∧ s1.m_cell_size = s.m_cell_size ∧
      s1.m_grid_offset = s.m_grid_offset ∧ s1.m_enabled = s.m_enabled := by
  by_cases hg : gui.del = true ∧ s.m_selected < u32 s.m_models.length
  · have hsel : s.m_selected < s.m_models.length := lt_of_lt_of_le hg.2 (u32_le _)
    have hm : s.m_models[s.m_selected]? = some (s.m_models[s.m_selected]) :=
      List.getElem?_eq_getElem hsel
    refine ⟨{ s with m_models := Array_erase s.m_models s.m_selected },
      [HostCall.decRefCount (s.m_models[s.m_selected])],
      by simp only [onGUI_delete, if_pos hg, hm], ?_, rfl, rfl, rfl, rfl⟩
    simp [debugLines]
  · exact ⟨s, [], by simp only [onGUI_delete, if_neg hg], rfl, rfl, rfl, rfl, rfl⟩

theorem onGUI_add_spec (app : StudioApp) (s : EditorPlugin) (gui : Gui) :
    debugLines (onGUI_add app s gui).2 = [] ∧
    (onGUI_add app s gui).1.m_floor = s.m_floor ∧
    (onGUI_add app s gui).1.m_cell_size = s.m_cell_size ∧
    (onGUI_add app s gui).1.m_grid_offset = s.m_grid_offset ∧
    (onGUI_add app s gui).1.m_enabled = s.m_enabled := by
  unfold onGUI_add
  cases gui.resource <;> simp [debugLines]

/-- What a completed palette stage leaves: no debug line, and the inputs of the frame. -/
theorem onGUI_palette_ok (app : StudioApp) (s s4 : EditorPlugin) (gui : Gui)
    (calls : List HostCall) (h : onGUI_palette app s gui = .ok (s4, calls)) :
    debugLines calls = [] ∧ s4.m_floor = (onGUI_inputs s gui).m_floor ∧
      s4.m_cell_size = (onGUI_inputs s gui).m_cell_size ∧
      s4.m_grid_offset = (onGUI_inputs s gui).m_grid_offset ∧ s4.m_enabled = s.m_enabled := by
  unfold onGUI_palette at h
  obtain ⟨a1, a2, a3, a4, a5⟩ := onGUI_add_spec app (onGUI_inputs s gui) gui
  obtain ⟨s3, dels, hd, d1, d2, d3, d4, d5⟩ :=
    onGUI_delete_defined (onGUI_add app (onGUI_inputs s gui) gui).1 gui
  simp only [hd] at h
  cases ht : onGUI_tiles s3 gui with
  | error e => rw [ht] at h; cases h
  | ok r =>
    obtain ⟨s5, tiles⟩ := r
    simp only [ht, Except.ok.injEq, Prod.mk.injEq] at h
    obtain ⟨cols, -, hloop, hs5⟩ := onGUI_tiles_ok s3 s5 gui tiles ht
    have t1 := tileLoop_no_debugLines _ _ _ _ _ _ _ hloop
    rw [← h.1, ← h.2, debugLines_append, debugLines_append, a1, d1, t1, hs5]
    refine ⟨rfl, ?_, ?_, ?_, ?_⟩
    · simp only [d2, a2]
    · simp only [d3, a3]
    · simp only [d4, a4]
    · simp only [d5, a5]; rfl

theorem onGUI_closed (app : StudioApp) (s : EditorPlugin) (gui : Gui) (h : gui.begin_ = false) :
    onGUI app s gui = .ok (s, []) := by
  simp [onGUI, h]

theorem onGUI_disabled (app : StudioApp) (s : EditorPlugin) (gui : Gui)
    (hb : gui.begin_ = true) (he : (onGUI_checkbox s gui).m_enabled = false) :
    onGUI app s gui = .ok (onGUI_checkbox s gui, []) := by
  simp [onGUI, hb, he]

theorem onGUI_enabled (app : StudioApp) (s s4 : EditorPlugin) (gui : Gui)
    (calls : List HostCall) (hb : gui.begin_ = true)
    (he : (onGUI_checkbox s gui).m_enabled = true)
    (hp : onGUI_palette app (onGUI_checkbox s gui) gui = .ok (s4, calls)) :
    onGUI app s gui = .ok (s4, calls ++ onGUI_grid app s4) := by
  simp only [onGUI, hb, he, hp, if_true]

/-- The three ways in which a frame completes. -/
theorem onGUI_ok (app : StudioApp) (s s4 : EditorPlugin) (gui : Gui) (all : List HostCall)
    (h : onGUI app s gui = .ok (s4, all)) :
    (gui.begin_ = false ∧ s4 = s ∧ all = []) ∨
    (gui.begin_ = true ∧ (onGUI_checkbox s gui).m_enabled = false ∧
      s4 = onGUI_checkbox s gui ∧ all = []) ∨
    (gui.begin_ = true ∧ (onGUI_checkbox s gui).m_enabled = true ∧
      ∃ calls, onGUI_palette app (onGUI_checkbox s gui) gui = .ok (s4, calls) ∧
        all = calls ++ onGUI_grid app s4) := by
  by_cases hb : gui.begin_ = true
  · by_cases he : (onGUI_checkbox s gui).m_enabled = true
    · right; right
      refine ⟨hb, he, ?_⟩
      cases hp : onGUI_palette app (onGUI_checkbox s gui) gui with
      | error e => simp [onGUI, hb, he, hp] at h
      | ok r =>
        obtain ⟨s5, calls⟩ := r
        rw [onGUI_enabled app s s5 gui calls hb he hp] at h
        simp only [Except.ok.injEq, Prod.mk.injEq] at h
        exact ⟨calls, by rw [h.1], by rw [← h.2, h.1]⟩
    · have he1 : (onGUI_checkbox s gui).m_enabled = false := by simpa using he
      right; left
      rw [onGUI_disabled app s gui hb he1] at h
      simp only [Except.ok.injEq, Prod.mk.injEq] at h
      exact ⟨hb, he1, h.1.symm, h.2.symm⟩
  · have hb1 : gui.begin_ = false := by simpa using hb
    left
    rw [onGUI_closed app s gui hb1] at h
    simp only [Except.ok.injEq, Prod.mk.injEq] at h
    exact ⟨hb1, h.1.symm, h.2.symm⟩

theorem onGUI_grid_of_hit (app : StudioApp) (s : EditorPlugin) (pos : Vec3)
    (h : getIntersectPlanePos app s = some pos) :
    onGUI_grid app s =
      [ xSegment pos s.m_cell_size (pos.y + s.m_grid_offset) (-5 / 2),
        zSegment pos s.m_cell_size (pos.y + s.m_grid_offset) (-5 / 2),
        xSegment pos s.m_cell_size (pos.y + s.m_grid_offset) (-3 / 2),
        zSegment pos s.m_cell_size (pos.y + s.m_grid_offset) (-3 / 2),
        xSegment pos s.m_cell_size (pos.y + s.m_grid_offset) (-1 / 2),
        zSegment pos s.m_cell_size (pos.y + s.m_grid_offset) (-1 / 2),
        xSegment pos s.m_cell_size (pos.y + s.m_grid_offset) (1 / 2),
        zSegment pos s.m_cell_size (pos.y + s.m_grid_offset) (1 / 2),
        xSegment pos s.m_cell_size (pos.y + s.m_grid_offset) (3 / 2),
        zSegment pos s.m_cell_size (pos.y + s.m_grid_offset) (3 / 2),
        xSegment pos s.m_cell_size (pos.y + s.m_grid_offset) (5 / 2),
        zSegment pos s.m_cell_size (pos.y + s.m_grid_offset) (5 / 2) ] := by
  simp only [onGUI_grid, h, gridStep, half, color, Vec3.add, xSegment, zSegment,
    List.cons_append, List.nil_append, List.cons.injEq, HostCall.addDebugLine.injEq,
    Vec3.mk.injEq, and_true]
  norm_num
  simp only [sub_eq_add_neg, and_self]

theorem onGUI_grid_of_miss (app : StudioApp) (s : EditorPlugin)
    (h : getIntersectPlanePos app s = none) : onGUI_grid app s = [] := by
  simp only [onGUI_grid, h]

theorem mem_debugLines (calls : List HostCall) (a b : Vec3) (col : Nat)
    (h : HostCall.addDebugLine a b col ∈ calls) :
    HostCall.addDebugLine a b col ∈ debugLines calls := by
  simp only [debugLines, List.mem_filter]
  exact ⟨h, trivial⟩

theorem sample_getIntersectPlanePos :
    getIntersectPlanePos sampleApp sampleState = some ⟨3, 6, -1⟩ := by
  simp [getIntersectPlanePos, rayHit, sampleApp, sampleState, planeY, hitPoint, alignToCell,
    Vec3.add, Vec3.scale]
  norm_num

theorem sample_palette :
    onGUI_palette sampleApp (onGUI_checkbox sampleState idleGui) idleGui =
      .ok (sampleState, [HostCall.tile "models/wall.fbx" true, HostCall.sameLine,
        HostCall.tile "models/floor.fbx" false]) := by
  have hin : onGUI_inputs (onGUI_checkbox sampleState idleGui) idleGui = sampleState := by
    simp [onGUI_inputs, onGUI_checkbox, idleGui, sampleState]
  have hadd : onGUI_add sampleApp sampleState idleGui = (sampleState, []) := by
    simp [onGUI_add, idleGui]
  have hdel : onGUI_delete sampleState idleGui = .ok (sampleState, []) :=
    onGUI_delete_skips sampleState idleGui (Or.inl rfl)
  have htiles : onGUI_tiles sampleState idleGui =
      .ok (sampleState, [HostCall.tile "models/wall.fbx" true, HostCall.sameLine,
        HostCall.tile "models/floor.fbx" false]) := by
    have hloop : tileLoop 2 idleGui.clicked sampleState.m_models 0 sampleState.m_selected =
        .ok (0, [HostCall.tile "models/wall.fbx" true, HostCall.sameLine,
          HostCall.tile "models/floor.fbx" false]) := by
      simp [tileLoop, clickTile, u32, sampleState, idleGui]
    exact onGUI_tiles_of_loop sampleState idleGui 2 0 _ sample_num_cols hloop
  simp only [onGUI_palette, hin, hadd, hdel, htiles]
  rfl

/-- The debug lines of a completed frame. -/
theorem debugLines_of_frame (app : StudioApp) (s s4 : EditorPlugin) (gui : Gui)
    (all : List HostCall) (hrun : onGUI app s gui = .ok (s4, all)) :
    (∀ pos, gui.begin_ = true → (onGUI_checkbox s gui).m_enabled = true →
      getIntersectPlanePos app s4 = some pos →
      debugLines all =
        [ xSegment pos s4.m_cell_size (pos.y + s4.m_grid_offset) (-5 / 2),
          zSegment pos s4.m_cell_size (pos.y + s4.m_grid_offset) (-5 / 2),
          xSegment pos s4.m_cell_size (pos.y + s4.m_grid_offset) (-3 / 2),
          zSegment pos s4.m_cell_size (pos.y + s4.m_grid_offset) (-3 / 2),
          xSegment pos s4.m_cell_size (pos.y + s4.m_grid_offset) (-1 / 2),
          zSegment pos s4.m_cell_size (pos.y + s4.m_grid_offset) (-1 / 2),
          xSegment pos s4.m_cell_size (pos.y + s4.m_grid_offset) (1 / 2),
          zSegment pos s4.m_cell_size (pos.y + s4.m_grid_offset) (1 / 2),
          xSegment pos s4.m_cell_size (pos.y + s4.m_grid_offset) (3 / 2),
          zSegment pos s4.m_cell_size (pos.y + s4.m_grid_offset) (3 / 2),
          xSegment pos s4.m_cell_size (pos.y + s4.m_grid_offset) (5 / 2),
          zSegment pos s4.m_cell_size (pos.y + s4.m_grid_offset) (5 / 2) ]) ∧
    ((gui.begin_ = false ∨ (onGUI_checkbox s gui).m_enabled = false ∨
        getIntersectPlanePos app s4 = none) → debugLines all = []) := by
  refine ⟨?_, ?_⟩
  · intro pos hb he hpos
    rcases onGUI_ok app s s4 gui all hrun with h | h | ⟨-, -, calls, hp, hall⟩
    · rw [h.1] at hb; cases hb
    · rw [h.2.1] at he; cases he
    · have hnone := (onGUI_palette_ok app _ s4 gui calls hp).1
      have hgrid := onGUI_grid_of_hit app s4 pos hpos
      rw [hall, debugLines_append, hnone, List.nil_append, hgrid]
      simp [debugLines, xSegment, zSegment]
  · intro hcase
    rcases onGUI_ok app s s4 gui all hrun with h | h | ⟨hb, he, calls, hp, hall⟩
    · rw [h.2.2]; rfl
    · rw [h.2.2.2]; rfl
    · have hnone := (onGUI_palette_ok app _ s4 gui calls hp).1
      rcases hcase with h | h | h
      · rw [h] at hb; cases hb
      · rw [h] at he; cases he
      · rw [hall, debugLines_append, hnone, onGUI_grid_of_miss app s4 h]
        rfl

theorem alignToCell_offset_multiple (h c : ℚ) (hc : c ≠ 0) (k : ℚ) (m : ℤ)
    (hk : k = (m : ℚ) - 1 / 2) : IsMultiple (alignToCell h c + k * c) c := by
  refine ⟨⌊h / c⌋ + m, ?_⟩
  rw [hk]
  simp only [alignToCell, if_neg hc]
  push_cast
  ring

theorem xSegment_aligned (hx hz fy height k : ℚ) (cell : Vec3) (cx0 : cell.x ≠ 0)
    (cz0 : cell.z ≠ 0) (m : ℤ) (hk : k = (m : ℚ) - 1 / 2) (a b : Vec3) (col : Nat)
    (h : HostCall.addDebugLine a b col =
      xSegment ⟨alignToCell hx cell.x, fy, alignToCell hz cell.z⟩ cell height k) :
    a.y = height ∧ b.y = height ∧ a.z = b.z ∧ b.x - a.x = 5 * cell.x ∧
      IsMultiple a.z cell.z ∧ IsMultiple a.x cell.x ∧ IsMultiple b.x cell.x := by
  simp only [xSegment, HostCall.addDebugLine.injEq] at h
  obtain ⟨ha, hb, -⟩ := h
  subst ha hb
  refine ⟨rfl, rfl, rfl, by simp only; ring, ?_, ?_, ?_⟩
  · exact alignToCell_offset_multiple hz cell.z cz0 k m hk
  · have := alignToCell_offset_multiple hx cell.x cx0 (-5 / 2) (-2) (by norm_num)
    have e : alignToCell hx cell.x - 5 / 2 * cell.x = alignToCell hx cell.x + -5 / 2 * cell.x := by
      ring
    simp only [e]
    exact this
  · have := alignToCell_offset_multiple hx cell.x cx0 (5 / 2) 3 (by norm_num)
    exact this

theorem zSegment_aligned (hx hz fy height k : ℚ) (cell : Vec3) (cx0 : cell.x ≠ 0)
    (cz0 : cell.z ≠ 0) (m : ℤ) (hk : k = (m : ℚ) - 1 / 2) (a b : Vec3) (col : Nat)
    (h : HostCall.addDebugLine a b col =
      zSegment ⟨alignToCell hx cell.x, fy, alignToCell hz cell.z⟩ cell height k) :
    a.y = height ∧ b.y = height ∧ a.x = b.x ∧ b.z - a.z = 5 * cell.z ∧
      IsMultiple a.x cell.x ∧ IsMultiple a.z cell.z ∧ IsMultiple b.z cell.z := by
  simp only [zSegment, HostCall.addDebugLine.injEq] at h
  obtain ⟨ha, hb, -⟩ := h
  subst ha hb
  refine ⟨rfl, rfl, rfl, by simp only; ring, ?_, ?_, ?_⟩
  · exact alignToCell_offset_multiple hx cell.x cx0 k m hk
  · have := alignToCell_offset_multiple hz cell.z cz0 (-5 / 2) (-2) (by norm_num)
    have e : alignToCell hz cell.z - 5 / 2 * cell.z = alignToCell hz cell.z + -5 / 2 * cell.z := by
      ring
    simp only [e]
    exact this
  · have := alignToCell_offset_multiple hz cell.z cz0 (5 / 2) 3 (by norm_num)
    exact this

/-- C4: in a completed frame whose state has non-zero `m_cell_size.x` and
`m_cell_size.z`, every debug line has both endpoints at height
`m_floor * m_cell_size.y + m_grid_offset`, and is either a line along the x axis (equal
`z` at both ends, five cells long) whose `z` is an integer multiple of `m_cell_size.z`
and whose end `x` coordinates are integer multiples of `m_cell_size.x`, or a line along
the z axis (equal `x` at both ends, five cells long) whose `x` is an integer multiple of
`m_cell_size.x` and whose end `z` coordinates are integer multiples of `m_cell_size.z`. -/
theorem onGUI_grid_aligned (app : StudioApp) (s s4 : EditorPlugin) (gui : Gui)
    (all : List HostCall) (a b : Vec3) (col : Nat)
    (hrun : onGUI app s gui = .ok (s4, all))
    (hx : s4.m_cell_size.x ≠ 0) (hz : s4.m_cell_size.z ≠ 0)
    (hline : HostCall.addDebugLine a b col ∈ all) :
    a.y = (s4.m_floor : ℚ) * s4.m_cell_size.y + s4.m_grid_offset ∧
    b.y = (s4.m_floor : ℚ) * s4.m_cell_size.y + s4.m_grid_offset ∧
    ((a.z = b.z ∧ b.x - a.x = 5 * s4.m_cell_size.x ∧ IsMultiple a.z s4.m_cell_size.z ∧
        IsMultiple a.x s4.m_cell_size.x ∧ IsMultiple b.x s4.m_cell_size.x) ∨
      (a.x = b.x ∧ b.z - a.z = 5 * s4.m_cell_size.z ∧ IsMultiple a.x s4.m_cell_size.x ∧
        IsMultiple a.z s4.m_cell_size.z ∧ IsMultiple b.z s4.m_cell_size.z)) := by
  have hmem := mem_debugLines all a b col hline
  cases hhit : rayHit app s4 with
  | none =>
    have hmiss := getIntersectPlanePos_of_miss app s4 hhit
    have := (debugLines_of_frame app s s4 gui all hrun).2 (Or.inr (Or.inr hmiss))
    rw [this] at hmem
    cases hmem
  | some t =>
    have hpos := getIntersectPlanePos_of_hit app s4 t hhit
    rcases onGUI_ok app s s4 gui all hrun with h | h | ⟨hb, he, calls, hp, hall⟩
    · rw [h.2.2] at hline; cases hline
    · rw [h.2.2.2] at hline; cases hline
    · have hd := (debugLines_of_frame app s s4 gui all hrun).1 _ hb he hpos
      rw [hd] at hmem
      simp only [List.mem_cons, List.mem_singleton, List.not_mem_nil, or_false] at hmem
      rcases hmem with h | h | h | h | h | h | h | h | h | h | h | h
      · obtain ⟨h1, h2, h3⟩ := xSegment_aligned _ _ _ _ _ _ hx hz (-2) (by norm_num) a b col h
        exact ⟨h1, h2, Or.inl h3⟩
      · obtain ⟨h1, h2, h3⟩ := zSegment_aligned _ _ _ _ _ _ hx hz (-2) (by norm_num) a b col h
        exact ⟨h1, h2, Or.inr h3⟩
      · obtain ⟨h1, h2, h3⟩ := xSegment_aligned _ _ _ _ _ _ hx hz (-1) (by norm_num) a b col h
        exact ⟨h1, h2, Or.inl h3⟩
      · obtain ⟨h1, h2, h3⟩ := zSegment_aligned _ _ _ _ _ _ hx hz (-1) (by norm_num) a b col h
        exact ⟨h1, h2, Or.inr h3⟩
      · obtain ⟨h1, h2, h3⟩ := xSegment_aligned _ _ _ _ _ _ hx hz 0 (by norm_num) a b col h
        exact ⟨h1, h2, Or.inl h3⟩
      · obtain ⟨h1, h2, h3⟩ := zSegment_aligned _ _ _ _ _ _ hx hz 0 (by norm_num) a b col h
        exact ⟨h1, h2, Or.inr h3⟩
      · obtain ⟨h1, h2, h3⟩ := xSegment_aligned _ _ _ _ _ _ hx hz 1 (by norm_num) a b col h
        exact ⟨h1, h2, Or.inl h3⟩
      · obtain ⟨h1, h2, h3⟩ := zSegment_aligned _ _ _ _ _ _ hx hz 1 (by norm_num) a b col h
        exact ⟨h1, h2, Or.inr h3⟩
      · obtain ⟨h1, h2, h3⟩ := xSegment_aligned _ _ _ _ _ _ hx hz 2 (by norm_num) a b col h
        exact ⟨h1, h2, Or.inl h3⟩
      · obtain ⟨h1, h2, h3⟩ := zSegment_aligned _ _ _ _ _ _ hx hz 2 (by norm_num) a b col h
        exact ⟨h1, h2, Or.inr h3⟩
      · obtain ⟨h1, h2, h3⟩ := xSegment_aligned _ _ _ _ _ _ hx hz 3 (by norm_num) a b col h
        exact ⟨h1, h2, Or.inl h3⟩
      · obtain ⟨h1, h2, h3⟩ := zSegment_aligned _ _ _ _ _ _ hx hz 3 (by norm_num) a b col h
        exact ⟨h1, h2, Or.inr h3⟩

theorem onGUI_grid_aligned_witness :
    onGUI sampleApp sampleState idleGui =
      .ok (sampleState, [HostCall.tile "models/wall.fbx" true, HostCall.sameLine,
        HostCall.tile "models/floor.fbx" false] ++ onGUI_grid sampleApp sampleState) ∧
    ((3 : ℚ) + -5 / 2 * 2 = (-1 : ℤ) * 2 ∧ (6 : ℚ) + 1 / 2 = (2 : ℕ) * 3 + 1 / 2) ∧
    ((⟨3 + -5 / 2 * 2, 6 + 1 / 2, -1 - 5 / 2 * 2⟩ : Vec3).y =
        (sampleState.m_floor : ℚ) * sampleState.m_cell_size.y + sampleState.m_grid_offset ∧
      (⟨3 + -5 / 2 * 2, 6 + 1 / 2, -1 + 5 / 2 * 2⟩ : Vec3).y =
        (sampleState.m_floor : ℚ) * sampleState.m_cell_size.y + sampleState.m_grid_offset ∧
      (((⟨3 + -5 / 2 * 2, 6 + 1 / 2, -1 - 5 / 2 * 2⟩ : Vec3).z =
          (⟨3 + -5 / 2 * 2, 6 + 1 / 2, -1 + 5 / 2 * 2⟩ : Vec3).z ∧
        (⟨3 + -5 / 2 * 2, 6 + 1 / 2, -1 + 5 / 2 * 2⟩ : Vec3).x -
          (⟨3 + -5 / 2 * 2, 6 + 1 / 2, -1 - 5 / 2 * 2⟩ : Vec3).x =
            5 * sampleState.m_cell_size.x ∧
        IsMultiple (⟨3 + -5 / 2 * 2, 6 + 1 / 2, -1 - 5 / 2 * 2⟩ : Vec3).z
          sampleState.m_cell_size.z ∧
        IsMultiple (⟨3 + -5 / 2 * 2, 6 + 1 / 2, -1 - 5 / 2 * 2⟩ : Vec3).x
          sampleState.m_cell_size.x ∧
        IsMultiple (⟨3 + -5 / 2 * 2, 6 + 1 / 2, -1 + 5 / 2 * 2⟩ : Vec3).x
          sampleState.m_cell_size.x) ∨
      ((⟨3 + -5 / 2 * 2, 6 + 1 / 2, -1 - 5 / 2 * 2⟩ : Vec3).x =
          (⟨3 + -5 / 2 * 2, 6 + 1 / 2, -1 + 5 / 2 * 2⟩ : Vec3).x ∧
        (⟨3 + -5 / 2 * 2, 6 + 1 / 2, -1 + 5 / 2 * 2⟩ : Vec3).z -
          (⟨3 + -5 / 2 * 2, 6 + 1 / 2, -1 - 5 / 2 * 2⟩ : Vec3).z =
            5 * sampleState.m_cell_size.z ∧
        IsMultiple (⟨3 + -5 / 2 * 2, 6 + 1 / 2, -1 - 5 / 2 * 2⟩ : Vec3).x
          sampleState.m_cell_size.x ∧
        IsMultiple (⟨3 + -5 / 2 * 2, 6 + 1 / 2, -1 - 5 / 2 * 2⟩ : Vec3).z
          sampleState.m_cell_size.z ∧
        IsMultiple (⟨3 + -5 / 2 * 2, 6 + 1 / 2, -1 + 5 / 2 * 2⟩ : Vec3).z
          sampleState.m_cell_size.z))) :=
  ⟨onGUI_enabled sampleApp sampleState sampleState idleGui _ rfl rfl sample_palette,
    ⟨by norm_num, by norm_num⟩,
    onGUI_grid_aligned sampleApp sampleState sampleState idleGui _ _ _ 0xff00ffff
      (onGUI_enabled sampleApp sampleState sampleState idleGui _ rfl rfl sample_palette)
      (by simp [sampleState]) (by simp [sampleState])
      (by
        rw [onGUI_grid_of_hit sampleApp sampleState _ sample_getIntersectPlanePos]
        simp [zSegment, sampleState])⟩

/-! ## Index safety -/

theorem tileLoop_error (cols : Nat) (clicked : Nat → Bool) (ms : List Model) :
    ∀ i sel e, tileLoop cols clicked ms i sel = .error e → e = Fault.remByZero := by
  induction ms with
  | nil => intro i sel e h; rw [tileLoop_nil] at h; cases h
  | cons m ms ih =>
    intro i sel e h
    by_cases hc : cols = 0
    · simp only [tileLoop, if_pos hc, Except.error.injEq] at h
      exact h.symm
    · simp only [tileLoop, if_neg hc] at h
      cases hr : tileLoop cols clicked ms (i + 1) (clickTile (clicked i) sel (u32 i)) with
      | error e1 =>
        simp only [hr, Except.error.injEq] at h
        rw [← h]
        exact ih _ _ _ hr
      | ok r => simp only [hr] at h; cases h

theorem num_cols_error (gui : Gui) (e : Fault) (h : num_cols gui = .error e) :
    e = Fault.floatToU32 := by
  simp only [num_cols] at h
  split at h
  · simp only [Except.error.injEq] at h; exact h.symm
  · split at h
    · cases h
    · simp only [Except.error.injEq] at h; exact h.symm

theorem onGUI_tiles_error (s : EditorPlugin) (gui : Gui) (e : Fault)
    (h : onGUI_tiles s gui = .error e) : e ≠ Fault.indexOutOfBounds := by
  unfold onGUI_tiles at h
  cases hc : num_cols gui with
  | error e1 =>
    simp only [hc, Except.error.injEq] at h
    rw [← h, num_cols_error gui e1 hc]
    decide
  | ok cols =>
    simp only [hc] at h
    cases hl : tileLoop cols gui.clicked s.m_models 0 s.m_selected with
    | error e1 =>
      simp only [hl, Except.error.injEq] at h
      rw [← h, tileLoop_error _ _ _ _ _ _ hl]
      decide
    | ok r => simp only [hl] at h; cases h

theorem onGUI_palette_error (app : StudioApp) (s : EditorPlugin) (gui : Gui) (e : Fault)
    (h : onGUI_palette app s gui = .error e) : e ≠ Fault.indexOutOfBounds := by
  obtain ⟨s3, dels, hd, -⟩ := onGUI_delete_defined (onGUI_add app (onGUI_inputs s gui) gui).1 gui
  simp only [onGUI_palette, hd] at h
  cases ht : onGUI_tiles s3 gui with
  | error e1 =>
    simp only [ht, Except.error.injEq] at h
    rw [← h]
    exact onGUI_tiles_error s3 gui e1 ht
  | ok r => simp only [ht] at h; cases h

theorem onGUI_index_safe (app : StudioApp) (s : EditorPlugin) (gui : Gui) :
    onGUI app s gui ≠ .error Fault.indexOutOfBounds := by
  intro h
  by_cases hb : gui.begin_ = true
  · by_cases he : (onGUI_checkbox s gui).m_enabled = true
    · cases hp : onGUI_palette app (onGUI_checkbox s gui) gui with
      | error e =>
        simp only [onGUI, hb, he, hp, if_true, Except.error.injEq] at h
        exact onGUI_palette_error app _ gui e hp h
      | ok r =>
        obtain ⟨s4, calls⟩ := r
        rw [onGUI_enabled app s s4 gui calls hb he hp] at h
        cases h
    · have he1 : (onGUI_checkbox s gui).m_enabled = false := by simpa using he
      rw [onGUI_disabled app s gui hb he1] at h
      cases h
  · have hb1 : gui.begin_ = false := by simpa using hb
    rw [onGUI_closed app s gui hb1] at h
    cases h

theorem onMouseDown_index_safe (app : StudioApp) (s : EditorPlugin) :
    onMouseDown app s ≠ .error Fault.indexOutOfBounds := by
  intro h
  by_cases hsel : s.m_selected < s.m_models.length
  · have hm : s.m_models[s.m_selected]? = some (s.m_models[s.m_selected]) :=
      List.getElem?_eq_getElem hsel
    unfold onMouseDown at h
    simp only [hm] at h
    split at h
    · cases h
    · split at h
      · cases h
      · split at h <;> cases h
  · rw [onMouseDown_unselected app s (not_lt.mp hsel)] at h
    cases h

theorem clickTile_lt (c : Bool) (sel i : Nat) (h : sel < 2 ^ 32) :
    clickTile c sel (u32 i) < 2 ^ 32 := by
  unfold clickTile
  split
  · split
    · simp [NO_SELECTION]
    · exact u32_lt i
  · exact h

theorem tileLoop_selected_lt (cols : Nat) (clicked : Nat → Bool) (ms : List Model) :
    ∀ i sel sel2 calls, sel < 2 ^ 32 → tileLoop cols clicked ms i sel = .ok (sel2, calls) →
      sel2 < 2 ^ 32 := by
  induction ms with
  | nil =>
    intro i sel sel2 calls hsel h
    rw [tileLoop_nil] at h
    simp only [Except.ok.injEq, Prod.mk.injEq] at h
    rw [← h.1]; exact hsel
  | cons m ms ih =>
    intro i sel sel2 calls hsel h
    obtain ⟨-, rest, hrest, -⟩ := tileLoop_cons_ok cols clicked m ms i sel sel2 calls h
    exact ih _ _ _ _ (clickTile_lt _ _ _ hsel) hrest

theorem onGUI_delete_selected (s s1 : EditorPlugin) (gui : Gui) (calls : List HostCall)
    (h : onGUI_delete s gui = .ok (s1, calls)) : s1.m_selected = s.m_selected := by
  unfold onGUI_delete at h
  split at h
  · split at h
    · cases h
    · simp only [Except.ok.injEq, Prod.mk.injEq] at h
      rw [← h.1]
  · simp only [Except.ok.injEq, Prod.mk.injEq] at h
    rw [← h.1]

theorem onGUI_add_selected (app : StudioApp) (s : EditorPlugin) (gui : Gui) :
    (onGUI_add app s gui).1.m_selected = s.m_selected := by
  unfold onGUI_add
  cases gui.resource <;> rfl

theorem onGUI_palette_selected_lt (app : StudioApp) (s s4 : EditorPlugin) (gui : Gui)
    (calls : List HostCall) (hsel : s.m_selected < 2 ^ 32)
    (h : onGUI_palette app s gui = .ok (s4, calls)) : s4.m_selected < 2 ^ 32 := by
  unfold onGUI_palette at h
  obtain ⟨s3, dels, hd, -⟩ := onGUI_delete_defined (onGUI_add app (onGUI_inputs s gui) gui).1 gui
  have h3 : s3.m_selected = s.m_selected := by
    rw [onGUI_delete_selected _ s3 gui dels hd, onGUI_add_selected]
    rfl
  simp only [hd] at h
  cases ht : onGUI_tiles s3 gui with
  | error e => rw [ht] at h; cases h
  | ok r =>
    obtain ⟨s5, tiles⟩ := r
    simp only [ht, Except.ok.injEq, Prod.mk.injEq] at h
    obtain ⟨cols, -, hloop, -⟩ := onGUI_tiles_ok s3 s5 gui tiles ht
    rw [← h.1]
    exact tileLoop_selected_lt _ _ _ _ _ _ _ (by rw [h3]; exact hsel) hloop

/-- In every reachable state `m_selected` is a `u32` value. -/
theorem reachable_selected_lt (s : EditorPlugin) (hs : Reachable s) : s.m_selected < 2 ^ 32 := by
  induction hs with
  | initial => simp [EditorPlugin.initial]
  | gui app gui s s1 calls _ hrun ih =>
    rcases onGUI_ok app s s1 gui calls hrun with h | h | ⟨-, -, cs, hp, -⟩
    · rw [h.2.1]; exact ih
    · rw [h.2.2.1]; exact ih
    · exact onGUI_palette_selected_lt app (onGUI_checkbox s gui) s1 gui cs ih hp
  | mouse app s s1 b calls _ hrun ih =>
    have : s1 = s := by
      unfold onMouseDown at hrun
      split at hrun
      · simp only [Except.ok.injEq, Prod.mk.injEq] at hrun; exact hrun.2.1.symm
      · split at hrun
        · simp only [Except.ok.injEq, Prod.mk.injEq] at hrun; exact hrun.2.1.symm
        · split at hrun
          · split at hrun
            · cases hrun
            · simp only [Except.ok.injEq, Prod.mk.injEq] at hrun; exact hrun.2.1.symm
          · simp only [Except.ok.injEq, Prod.mk.injEq] at hrun; exact hrun.2.1.symm
    rw [this]; exact ih

/-- C8: in every state reachable from the initial one by `onGUI` frames (additions,
deletions, tile clicks) and `onMouseDown` calls, no frame and no click evaluates
`m_models[m_selected]` outside the palette: neither method ends in the
out-of-bounds fault, whatever the host answers, while `m_selected` itself is only
known to be at most `0xFFFFFFFF`. -/
theorem palette_index_in_bounds (s : EditorPlugin) (hs : Reachable s) :
    (∀ app gui, onGUI app s gui ≠ .error Fault.indexOutOfBounds) ∧
    (∀ app, onMouseDown app s ≠ .error Fault.indexOutOfBounds) ∧
    s.m_selected ≤ NO_SELECTION :=
  ⟨fun app gui => onGUI_index_safe app s gui, fun app => onMouseDown_index_safe app s,
    by have := reachable_selected_lt s hs; rw [NO_SELECTION]; omega⟩

theorem palette_index_in_bounds_witness :
    (Reachable EditorPlugin.initial ∧
      EditorPlugin.initial.m_models.length ≤ EditorPlugin.initial.m_selected) ∧
    (∀ app gui, onGUI app EditorPlugin.initial gui ≠ .error Fault.indexOutOfBounds) ∧
    (∀ app, onMouseDown app EditorPlugin.initial ≠ .error Fault.indexOutOfBounds) ∧
    EditorPlugin.initial.m_selected ≤ NO_SELECTION :=
  ⟨⟨Reachable.initial, by simp [EditorPlugin.initial]⟩,
    palette_index_in_bounds EditorPlugin.initial Reachable.initial⟩

/-! ## The column count -/

/-- The column count is 0 whenever the content region is narrower than one tile. -/
theorem num_cols_narrow (gui : Gui) (h0 : 0 ≤ gui.avail_x)
    (hlt : gui.avail_x < gui.thumbnail_width + gui.item_spacing_x) : num_cols gui = .ok 0 := by
  have hp : 0 < gui.thumbnail_width + gui.item_spacing_x := lt_of_le_of_lt h0 hlt
  have hq0 : 0 ≤ gui.avail_x / (gui.thumbnail_width + gui.item_spacing_x) :=
    div_nonneg h0 hp.le
  have hq1 : gui.avail_x / (gui.thumbnail_width + gui.item_spacing_x) < 1 :=
    (div_lt_one hp).2 hlt
  have ht : trunc (gui.avail_x / (gui.thumbnail_width + gui.item_spacing_x)) = 0 := by
    rw [trunc, if_pos hq0, Int.floor_eq_iff]
    constructor
    · simpa using hq0
    · simpa using hq1
  simp only [num_cols, if_neg hp.ne', ht]
  simp

theorem narrow_num_cols : num_cols narrowGui = .ok 0 :=
  num_cols_narrow narrowGui (by simp [narrowGui, idleGui])
    (by simp [narrowGui, idleGui]; norm_num)

/-- C9 fails on the code: with a content width of 50 and tiles 96 + 4 apart the column
count is 0, and a frame with a non-empty palette takes a remainder by zero. -/
theorem narrow_panel_rem_by_zero :
    (0 : ℚ) ≤ narrowGui.avail_x ∧ 0 < narrowGui.thumbnail_width + narrowGui.item_spacing_x ∧
    sampleState.m_models ≠ [] ∧ num_cols narrowGui = .ok 0 ∧
    onGUI sampleApp sampleState narrowGui = .error Fault.remByZero := by
  refine ⟨by simp [narrowGui, idleGui], by simp [narrowGui, idleGui]; norm_num,
    by simp [sampleState], narrow_num_cols, ?_⟩
  have hin : onGUI_inputs (onGUI_checkbox sampleState narrowGui) narrowGui = sampleState := by
    simp [onGUI_inputs, onGUI_checkbox, narrowGui, idleGui, sampleState]
  have hadd : onGUI_add sampleApp sampleState narrowGui = (sampleState, []) := by
    simp [onGUI_add, narrowGui, idleGui]
  have hdel : onGUI_delete sampleState narrowGui = .ok (sampleState, []) :=
    onGUI_delete_skips sampleState narrowGui (Or.inl rfl)
  have htiles : onGUI_tiles sampleState narrowGui = .error Fault.remByZero := by
    simp [onGUI_tiles, narrow_num_cols, sampleState, tileLoop]
  have hp : onGUI_palette sampleApp (onGUI_checkbox sampleState narrowGui) narrowGui =
      .error Fault.remByZero := by
    simp only [onGUI_palette, hin, hadd, hdel, htiles]
  have hb : narrowGui.begin_ = true := rfl
  have he : (onGUI_checkbox sampleState narrowGui).m_enabled = true := rfl
  simp only [onGUI, hb, he, hp, if_true]

end Lumix
